import Mathlib

/-!
Shallow embedding of `benchmark.py`, the benchmarking driver of the
justact-prototype repository, together with proofs of its specified
properties.

The script orchestrates external processes (a build tool and compiled
benchmark binaries).  The embedding makes the external world explicit as an
oracle (`World`) assigning to every invocation its exit code, captured
output streams and elapsed wall-clock time, and records the observable
behaviour of the driver as a trace of `Event`s together with an `Outcome`
(normal return, `sys.exit`, or an uncaught `ZeroDivisionError`).

Python floats are modelled as rationals; wall-clock reads are modelled by
the oracle supplying the elapsed duration of each run.
-/

namespace Benchmark

/-- The fixed default example list (source: constant `EXAMPLES`). -/
def EXAMPLES : List String :=
  ["section6-3-1", "section6-3-2", "section6-3-3", "section6-3-4", "section6-3-5"]

/-- Source constant `SCRIPT_DIR = os.path.dirname(os.path.abspath(__file__))`: a fixed
directory determined by the environment, not by any input.  The claims
depend only on it being one fixed value, so it is modelled as a constant. -/
def SCRIPT_DIR : String := "/script"

/-! ### Model of `shlex.split`

`main` re-lexes the `cargo` configuration string with `shlex.split`
(POSIX mode, whitespace splitting).  Modelled from the Python standard
library's documented behaviour: whitespace separates tokens; a single
quote protects everything up to the matching quote; a double quote
protects up to the matching quote except that a backslash escapes a
double quote or a backslash; outside quotes a backslash escapes the next
character.  Python raises `ValueError` on an unterminated quote or a
trailing escape; the model closes the token instead — no claim exercises
that case. -/

/-- Python `shlex.whitespace`. -/
def shlexWhitespace (c : Char) : Bool :=
  c == ' ' || c == '\t' || c == '\r' || c == '\n'

/-- The single-quote character. -/
def squoteChar : Char := Char.ofNat 39

/-- The double-quote character. -/
def dquoteChar : Char := Char.ofNat 34

/-- The backslash character. -/
def backslashChar : Char := Char.ofNat 92

/-- Lexer mode: outside quotes, inside single quotes, inside double quotes. -/
inductive LexMode where
  | norm
  | squote
  | dquote
  deriving DecidableEq

/-- One step of the `shlex` state machine, driven by fuel so that the
definition is structurally recursive (each step consumes at least one
character, so `cs.length` fuel suffices). -/
def shlexGo : Nat → List Char → LexMode → Bool → List Char → List String
  | 0, _, _, started, cur => if started then [String.mk cur] else []
  | _ + 1, [], _, started, cur => if started then [String.mk cur] else []
  | fuel + 1, c :: rest, LexMode.norm, started, cur =>
    if shlexWhitespace c then
      if started then String.mk cur :: shlexGo fuel rest LexMode.norm false []
      else shlexGo fuel rest LexMode.norm false []
    else if c == squoteChar then shlexGo fuel rest LexMode.squote true cur
    else if c == dquoteChar then shlexGo fuel rest LexMode.dquote true cur
    else if c == backslashChar then
      match rest with
      | [] => [String.mk cur]
      | d :: rest2 => shlexGo fuel rest2 LexMode.norm true (cur ++ [d])
    else shlexGo fuel rest LexMode.norm true (cur ++ [c])
  | fuel + 1, c :: rest, LexMode.squote, started, cur =>
    if c == squoteChar then shlexGo fuel rest LexMode.norm started cur
    else shlexGo fuel rest LexMode.squote started (cur ++ [c])
  | fuel + 1, c :: rest, LexMode.dquote, started, cur =>
    if c == dquoteChar then shlexGo fuel rest LexMode.norm started cur
    else if c == backslashChar then
      match rest with
      | [] => [String.mk (cur ++ [c])]
      | d :: rest2 =>
        if d == dquoteChar || d == backslashChar then
          shlexGo fuel rest2 LexMode.dquote started (cur ++ [d])
        else shlexGo fuel rest2 LexMode.dquote started (cur ++ [c, d])
    else shlexGo fuel rest LexMode.dquote started (cur ++ [c])

/-- Python's `shlex.split(s)` as called on line 118 of the source. -/
def shlexSplit (s : String) : List String :=
  shlexGo (s.length + 1) s.toList LexMode.norm false []

/-! ### Observable events and outcomes -/

/-- Structured stand-ins for the driver's `print` calls; the exact
formatted strings are abstracted, the printed data is kept. -/
inductive PrintMsg where
  /-- line 121: the compiling-stage header. -/
  | compilingHeader
  /-- line 123: per-example progress marker of the compile loop. -/
  | compileProgress (ex : String) (i n : Nat)
  /-- line 127: the benchmarking-stage header. -/
  | benchHeader
  /-- line 129: per-example progress marker of the benchmark loop. -/
  | benchProgress (ex : String) (i n : Nat)
  /-- line 132: start of a per-run line (printed without newline). -/
  | runPre (t times : Nat)
  /-- line 134: completion of a per-run line with the sample in ms. -/
  | runMs (ms : ℚ)
  /-- line 136: the final mean / labelled standard-deviation line. -/
  | statsLine (mean sd : ℚ)
  deriving DecidableEq

/-- Observable events of one driver execution. -/
inductive Event where
  /-- an `os.chdir(dir)` call — the only ambient-state mutation the driver performs. -/
  | chdir (dir : String)
  /-- a `print` to standard output. -/
  | printLn (msg : PrintMsg)
  /-- a `subprocess.Popen(cmd)` plus `wait` of a build command, with its exit code. -/
  | build (cmd : List String) (code : Nat)
  /-- a `subprocess.Popen(path)` plus `wait` of a benchmark binary, with its exit code. -/
  | run (path : String) (code : Nat)
  /-- the fatal-error diagnostic printed to stderr for a failed build. -/
  | errPrintBuild (cmd : List String) (code : Nat) (out err : String)
  /-- the fatal-error diagnostic printed to stderr for a failed benchmark run. -/
  | errPrintRun (path : String) (code : Nat) (out err : String)
  deriving DecidableEq

/-- How a (sub-)computation of the driver ends. -/
inductive Outcome (α : Type) where
  /-- normal completion with a value. -/
  | ok (a : α)
  /-- a `sys.exit(code)`: immediate process termination. -/
  | exited (code : Nat)
  /-- an uncaught `ZeroDivisionError`. -/
  | zeroDivError
  deriving DecidableEq

/-- The external world: exit codes, captured streams and elapsed times of
every process the driver may spawn.  Benchmark-run oracles are indexed by
the run counter `t` so that successive runs may differ. -/
structure World where
  buildExit : String → Nat
  buildOut : String → String
  buildErr : String → String
  runExit : String → Nat → Nat
  runOut : String → Nat → String
  runErr : String → Nat → String
  /-- elapsed wall-clock seconds of the `t`-th run of an example
  (`time.time() - start` around the `Popen`/`wait`). -/
  runTime : String → Nat → ℚ

/-! ### The embedded program -/

/-- Line 60: the build command constructed by `precompile`. -/
def buildCmd (cargo : List String) (target ex : String) : List String :=
  cargo ++ ["build", "--release", "--target-dir", target, "--features",
    "dataplane,log,serde,slick", "--example", ex]

/-- Line 84: `os.path.join(target, "release", "examples", ex)`, modelled as
separator-joined components (the claims do not depend on `os.path.join`'s
treatment of absolute components or trailing separators). -/
def binPath (target ex : String) : String :=
  String.intercalate "/" [target, "release", "examples", ex]

/-- Source function `precompile(ex, cargo, target)` (lines 44–68): chdir to the script
directory, spawn the build command, and on a non-zero exit code print the
diagnostic and `sys.exit(1)`. -/
def precompile (w : World) (ex : String) (cargo : List String) (target : String) :
    List Event × Outcome Unit :=
  let cmd := buildCmd cargo target ex
  let code := w.buildExit ex
  if code ≠ 0 then
    ([Event.chdir SCRIPT_DIR, Event.build cmd code,
      Event.errPrintBuild cmd code (w.buildOut ex) (w.buildErr ex)],
     Outcome.exited 1)
  else
    ([Event.chdir SCRIPT_DIR, Event.build cmd code], Outcome.ok ())

/-- Source function `benchmark(ex, target)` (lines 70–98): chdir to the script directory,
spawn the compiled binary, read its exit status with `handle.wait()`
(line 89), take the elapsed time, read the exit status a second time
(line 91, the walrus reassignment), and on a non-zero code print the
diagnostic and `sys.exit(1)`; otherwise return the elapsed seconds.
`wait` on the already-terminated process is a pure read of the world, so
both reads yield `w.runExit ex t`. -/
def benchmark (w : World) (ex target : String) (t : Nat) :
    List Event × Outcome ℚ :=
  let cmd := binPath target ex
  let code := w.runExit ex t
  let taken := w.runTime ex t
  let code2 := w.runExit ex t
  if code2 ≠ 0 then
    ([Event.chdir SCRIPT_DIR, Event.run cmd code,
      Event.errPrintRun cmd code2 (w.runOut ex t) (w.runErr ex t)],
     Outcome.exited 1)
  else
    ([Event.chdir SCRIPT_DIR, Event.run cmd code], Outcome.ok taken)

/-- Variant of `benchmark` that reads the exit status once; stated from the
spec's words for the refinement claim about the redundant second
`handle.wait()`. -/
def benchmarkOnce (w : World) (ex target : String) (t : Nat) :
    List Event × Outcome ℚ :=
  let cmd := binPath target ex
  let code := w.runExit ex t
  let taken := w.runTime ex t
  if code ≠ 0 then
    ([Event.chdir SCRIPT_DIR, Event.run cmd code,
      Event.errPrintRun cmd code (w.runOut ex t) (w.runErr ex t)],
     Outcome.exited 1)
  else
    ([Event.chdir SCRIPT_DIR, Event.run cmd code], Outcome.ok taken)

/-- Python's true division by an integer count: raises `ZeroDivisionError`
(modelled as `none`) when the divisor is zero. -/
def pyDiv (a : ℚ) (n : Nat) : Option ℚ :=
  if n = 0 then none else some (a / n)

/-- Line 135: `mean = sum(taken_ms) / times` (the value, when defined). -/
def meanOf (taken_ms : List ℚ) (times : Nat) : ℚ :=
  taken_ms.sum / times

/-- Line 136: `sum([math.pow(ms - mean, 2) for ms in taken_ms]) / times`,
the value printed under the label "standard deviation". -/
def stddevOf (taken_ms : List ℚ) (times : Nat) : ℚ :=
  ((taken_ms.map fun ms => (ms - meanOf taken_ms times) ^ 2).sum) / times

/-- The inner repetition loop of `main` (lines 130–134), iterating the
remaining run count `rem` with current run index `t` and the accumulated
`taken_ms` list: print the run marker, call `benchmark`, convert seconds
to milliseconds (`* 1000.0`), append, print the sample. -/
def benchRunsAux (w : World) (ex target : String) (times : Nat) :
    Nat → Nat → List ℚ → List Event × Outcome (List ℚ)
  | 0, _, acc => ([], Outcome.ok acc)
  | rem + 1, t, acc =>
    let pre := Event.printLn (PrintMsg.runPre t times)
    match benchmark w ex target t with
    | (es, Outcome.ok taken) =>
      let ms := taken * 1000
      let post := Event.printLn (PrintMsg.runMs ms)
      let r := benchRunsAux w ex target times rem (t + 1) (acc ++ [ms])
      (pre :: es ++ post :: r.1, r.2)
    | (es, Outcome.exited c) => (pre :: es, Outcome.exited c)
    | (es, Outcome.zeroDivError) => (pre :: es, Outcome.zeroDivError)

/-- The loop `for t in range(times)` of lines 131–134. -/
def benchRuns (w : World) (ex target : String) (times : Nat) :
    List Event × Outcome (List ℚ) :=
  benchRunsAux w ex target times times 0 []

/-- The Aggregator for one example (lines 130–136): run the repetition
loop, then compute and print mean and the variance labelled "standard
deviation"; each of the two divisions by `times` raises
`ZeroDivisionError` when `times = 0`. -/
def aggregate (w : World) (ex target : String) (times : Nat) :
    List Event × Outcome Unit :=
  match benchRuns w ex target times with
  | (es, Outcome.ok taken_ms) =>
    match pyDiv taken_ms.sum times with
    | none => (es, Outcome.zeroDivError)
    | some mean =>
      match pyDiv ((taken_ms.map fun ms => (ms - mean) ^ 2).sum) times with
      | none => (es, Outcome.zeroDivError)
      | some sd =>
        (es ++ [Event.printLn (PrintMsg.statsLine mean sd)], Outcome.ok ())
  | (es, Outcome.exited c) => (es, Outcome.exited c)
  | (es, Outcome.zeroDivError) => (es, Outcome.zeroDivError)

/-- The compile loop of `main` (lines 121–124) over the remaining
examples, with current index `i` and total count `n`. -/
def compileLoop (w : World) (cargo : List String) (target : String) (n : Nat) :
    List String → Nat → List Event × Outcome Unit
  | [], _ => ([], Outcome.ok ())
  | ex :: rest, i =>
    let pre := Event.printLn (PrintMsg.compileProgress ex (i + 1) n)
    match precompile w ex cargo target with
    | (es, Outcome.ok _) =>
      let r := compileLoop w cargo target n rest (i + 1)
      (pre :: es ++ r.1, r.2)
    | (es, Outcome.exited c) => (pre :: es, Outcome.exited c)
    | (es, Outcome.zeroDivError) => (pre :: es, Outcome.zeroDivError)

/-- The benchmark loop of `main` (lines 127–136) over the remaining
examples. -/
def benchLoop (w : World) (target : String) (times n : Nat) :
    List String → Nat → List Event × Outcome Unit
  | [], _ => ([], Outcome.ok ())
  | ex :: rest, i =>
    let pre := Event.printLn (PrintMsg.benchProgress ex (i + 1) n)
    match aggregate w ex target times with
    | (es, Outcome.ok _) =>
      let r := benchLoop w target times n rest (i + 1)
      (pre :: es ++ r.1, r.2)
    | (es, Outcome.exited c) => (pre :: es, Outcome.exited c)
    | (es, Outcome.zeroDivError) => (pre :: es, Outcome.zeroDivError)

/-- Source function `main(examples, times, cargo, target)` (lines 103–138): shell-lex the
cargo string, compile all examples, then benchmark and aggregate all
examples, returning exit code 0 on completion. -/
def main (w : World) (examples : List String) (times : Nat)
    (cargoStr target : String) : List Event × Outcome Nat :=
  let cargo := shlexSplit cargoStr
  match compileLoop w cargo target examples.length examples 0 with
  | (es1, Outcome.ok _) =>
    match benchLoop w target times examples.length examples 0 with
    | (es2, Outcome.ok _) =>
      (Event.printLn PrintMsg.compilingHeader :: es1 ++
        Event.printLn PrintMsg.benchHeader :: es2, Outcome.ok 0)
    | (es2, Outcome.exited c) =>
      (Event.printLn PrintMsg.compilingHeader :: es1 ++
        Event.printLn PrintMsg.benchHeader :: es2, Outcome.exited c)
    | (es2, Outcome.zeroDivError) =>
      (Event.printLn PrintMsg.compilingHeader :: es1 ++
        Event.printLn PrintMsg.benchHeader :: es2, Outcome.zeroDivError)
  | (es1, Outcome.exited c) =>
    (Event.printLn PrintMsg.compilingHeader :: es1, Outcome.exited c)
  | (es1, Outcome.zeroDivError) =>
    (Event.printLn PrintMsg.compilingHeader :: es1, Outcome.zeroDivError)

/-! ### Spec-side definition for the variance claim -/

/-- Stated from the spec's words: the population variance of a sample
sequence — the sum of squared deviations from the arithmetic mean of the
samples, divided by the number of samples, with no square root applied. -/
def populationVariance (samples : List ℚ) : ℚ :=
  (samples.map fun x => (x - samples.sum / samples.length) ^ 2).sum / samples.length

/-! ### Trace observers -/

/-- Is this event a benchmark-binary invocation? -/
def isRunEvent : Event → Bool
  | Event.run _ _ => true
  | _ => false

/-- Is this event a completed per-run output line? -/
def isRunMsPrint : Event → Bool
  | Event.printLn (PrintMsg.runMs _) => true
  | _ => false

/-- Number of benchmark-binary invocations in a trace. -/
def countRuns (es : List Event) : Nat := es.countP isRunEvent

/-- Number of completed per-run output lines in a trace. -/
def countRunMs (es : List Event) : Nat := es.countP isRunMsPrint

/-- The build commands spawned in a trace, in order. -/
def buildCmds (es : List Event) : List (List String) :=
  es.filterMap fun e => match e with
    | Event.build cmd _ => some cmd
    | _ => none

/-- Scanner: no build invocation occurs after a benchmark invocation
(the flag records whether a benchmark invocation has been seen). -/
def buildsBeforeRuns : List Event → Bool → Bool
  | [], _ => true
  | e :: es, seenRun =>
    match e with
    | Event.build _ _ => !seenRun && buildsBeforeRuns es seenRun
    | Event.run _ _ => buildsBeforeRuns es true
    | _ => buildsBeforeRuns es seenRun

/-- The current working directory after a trace, starting from an
arbitrary (possibly unknown) caller directory; only `chdir` changes it. -/
def cwdAfter (init : Option String) (es : List Event) : Option String :=
  es.foldl (fun c e => match e with | Event.chdir d => some d | _ => c) init

/-- Scanner: at every external process invocation the current working
directory equals the script directory, whatever directory the caller
started in. -/
def spawnsOk : Option String → List Event → Bool
  | _, [] => true
  | cwd, e :: es =>
    match e with
    | Event.chdir d => spawnsOk (some d) es
    | Event.build _ _ => (cwd == some SCRIPT_DIR) && spawnsOk cwd es
    | Event.run _ _ => (cwd == some SCRIPT_DIR) && spawnsOk cwd es
    | _ => spawnsOk cwd es

/-- Is this event harmless to ambient state — either not a mutation at
all, or a `chdir` to the fixed script directory? -/
def chdirOkEvent : Event → Bool
  | Event.chdir d => d == SCRIPT_DIR
  | _ => true

/-- Every ambient-state mutation in the trace (the only kind is `chdir`)
targets the fixed script directory. -/
def chdirsOk (es : List Event) : Bool :=
  es.all chdirOkEvent

/-- Pointwise classifier of events the compile stage can emit. -/
def compileStageEvent : Event → Bool
  | Event.chdir d => d == SCRIPT_DIR
  | Event.printLn _ => true
  | Event.build _ _ => true
  | Event.errPrintBuild _ _ _ _ => true
  | _ => false

/-- Pointwise classifier of events the benchmark stage can emit. -/
def benchStageEvent : Event → Bool
  | Event.chdir d => d == SCRIPT_DIR
  | Event.printLn _ => true
  | Event.run _ _ => true
  | Event.errPrintRun _ _ _ _ => true
  | _ => false

/-! ### Expected traces of the success paths -/

/-- The trace of the compile loop when every build succeeds. -/
def compileTrace (cargo : List String) (target : String) (n : Nat) :
    List String → Nat → List Event
  | [], _ => []
  | ex :: rest, i =>
    Event.printLn (PrintMsg.compileProgress ex (i + 1) n) ::
    Event.chdir SCRIPT_DIR ::
    Event.build (buildCmd cargo target ex) 0 ::
    compileTrace cargo target n rest (i + 1)

/-- The trace of the repetition loop when every run succeeds. -/
def benchTrace (w : World) (ex target : String) (times : Nat) :
    Nat → Nat → List Event
  | 0, _ => []
  | rem + 1, t =>
    Event.printLn (PrintMsg.runPre t times) ::
    Event.chdir SCRIPT_DIR ::
    Event.run (binPath target ex) 0 ::
    Event.printLn (PrintMsg.runMs (w.runTime ex t * 1000)) ::
    benchTrace w ex target times rem (t + 1)

/-- The millisecond samples collected for one example when every run
succeeds. -/
def msList (w : World) (ex : String) (times : Nat) : List ℚ :=
  (List.range times).map fun t => w.runTime ex t * 1000

/-! ### Concrete worlds used to instantiate theorems with hypotheses -/

/-- A world in which every external command succeeds and the `t`-th run of
any example takes `(t + 1) / 100` seconds. -/
def wOk : World where
  buildExit := fun _ => 0
  buildOut := fun _ => ""
  buildErr := fun _ => ""
  runExit := fun _ _ => 0
  runOut := fun _ _ => ""
  runErr := fun _ _ => ""
  runTime := fun _ t => (t + 1) / 100

/-- A world in which every build exits with code 2 and every run succeeds. -/
def wFail2 : World where
  buildExit := fun _ => 2
  buildOut := fun _ => "captured out"
  buildErr := fun _ => "captured err"
  runExit := fun _ _ => 0
  runOut := fun _ _ => ""
  runErr := fun _ _ => ""
  runTime := fun _ _ => 0

/-- A world in which builds succeed but every benchmark run exits with
code 3. -/
def wRunFail : World where
  buildExit := fun _ => 0
  buildOut := fun _ => ""
  buildErr := fun _ => ""
  runExit := fun _ _ => 3
  runOut := fun _ _ => "run out"
  runErr := fun _ _ => "run err"
  runTime := fun _ _ => 0

/-! ### Lemmas: success and failure paths of each stage -/

theorem precompile_ok (w : World) (ex : String) (cargo : List String) (target : String)
    (h : w.buildExit ex = 0) :
    precompile w ex cargo target =
      ([Event.chdir SCRIPT_DIR, Event.build (buildCmd cargo target ex) 0],
       Outcome.ok ()) := by
  simp [precompile, h]

theorem benchmark_ok (w : World) (ex target : String) (t : Nat)
    (h : w.runExit ex t = 0) :
    benchmark w ex target t =
      ([Event.chdir SCRIPT_DIR, Event.run (binPath target ex) 0],
       Outcome.ok (w.runTime ex t)) := by
  simp [benchmark, h]

theorem benchmark_fail (w : World) (ex target : String) (t : Nat)
    (h : w.runExit ex t ≠ 0) :
    benchmark w ex target t =
      ([Event.chdir SCRIPT_DIR, Event.run (binPath target ex) (w.runExit ex t),
        Event.errPrintRun (binPath target ex) (w.runExit ex t)
          (w.runOut ex t) (w.runErr ex t)],
       Outcome.exited 1) := by
  simp [benchmark, h]

theorem benchRunsAux_ok (w : World) (ex target : String) (times rem : Nat) :
    ∀ (t : Nat) (acc : List ℚ),
      (∀ s, t ≤ s → s < t + rem → w.runExit ex s = 0) →
      benchRunsAux w ex target times rem t acc =
        (benchTrace w ex target times rem t,
         Outcome.ok (acc ++ (List.range' t rem).map fun s => w.runTime ex s * 1000)) := by
  induction rem with
  | zero => intro t acc _; simp [benchRunsAux, benchTrace]
  | succ rem ih =>
    intro t acc h
    have h0 : w.runExit ex t = 0 := h t le_rfl (by omega)
    rw [benchRunsAux, benchmark_ok w ex target t h0]
    dsimp only
    rw [ih (t + 1) (acc ++ [w.runTime ex t * 1000]) (fun s h1 h2 => h s (by omega) (by omega))]
    simp [benchTrace, List.range'_succ]

theorem benchRuns_ok (w : World) (ex target : String) (times : Nat)
    (h : ∀ t, t < times → w.runExit ex t = 0) :
    benchRuns w ex target times =
      (benchTrace w ex target times times 0, Outcome.ok (msList w ex times)) := by
  rw [benchRuns, benchRunsAux_ok w ex target times times 0 []
    (fun s _ h2 => h s (by omega))]
  simp [msList, List.range_eq_range']

theorem msList_length (w : World) (ex : String) (times : Nat) :
    (msList w ex times).length = times := by
  simp [msList]

theorem aggregate_ok (w : World) (ex target : String) (times : Nat)
    (h : ∀ t, t < times → w.runExit ex t = 0) (ht : times ≠ 0) :
    aggregate w ex target times =
      (benchTrace w ex target times times 0 ++
        [Event.printLn (PrintMsg.statsLine (meanOf (msList w ex times) times)
          (stddevOf (msList w ex times) times))],
       Outcome.ok ()) := by
  unfold aggregate
  rw [benchRuns_ok w ex target times h]
  simp [pyDiv, ht, meanOf, stddevOf]

theorem compileLoop_ok (w : World) (cargo : List String) (target : String) (n : Nat) :
    ∀ (exs : List String) (i : Nat), (∀ e ∈ exs, w.buildExit e = 0) →
      compileLoop w cargo target n exs i =
        (compileTrace cargo target n exs i, Outcome.ok ()) := by
  intro exs
  induction exs with
  | nil => intro i _; simp [compileLoop, compileTrace]
  | cons ex rest ih =>
    intro i h
    rw [compileLoop, precompile_ok w ex cargo target (h ex (List.mem_cons_self _ _)),
      ih (i + 1) (fun e he => h e (List.mem_cons_of_mem _ he))]
    simp [compileTrace]

theorem compileLoop_fail (w : World) (cargo : List String) (target : String) (n : Nat) :
    ∀ (pre post : List String) (ex : String) (i : Nat),
      (∀ e ∈ pre, w.buildExit e = 0) → w.buildExit ex ≠ 0 →
      compileLoop w cargo target n (pre ++ ex :: post) i =
        (compileTrace cargo target n pre i ++
          [Event.printLn (PrintMsg.compileProgress ex (i + pre.length + 1) n),
           Event.chdir SCRIPT_DIR,
           Event.build (buildCmd cargo target ex) (w.buildExit ex),
           Event.errPrintBuild (buildCmd cargo target ex) (w.buildExit ex)
             (w.buildOut ex) (w.buildErr ex)],
         Outcome.exited 1) := by
  intro pre
  induction pre with
  | nil =>
    intro post ex i _ hex
    rw [List.nil_append, compileLoop]
    simp [precompile, hex, compileTrace]
  | cons e pre ih =>
    intro post ex i h hex
    rw [List.cons_append, compileLoop,
      precompile_ok w e cargo target (h e (List.mem_cons_self _ _)),
      ih post ex (i + 1) (fun x hx => h x (List.mem_cons_of_mem _ hx)) hex]
    have harith : i + 1 + pre.length + 1 = i + (e :: pre).length + 1 := by
      simp; omega
    rw [harith]
    simp [compileTrace]

theorem main_builds_ok (w : World) (examples : List String) (times : Nat)
    (cargoStr target : String) (h : ∀ ex ∈ examples, w.buildExit ex = 0) :
    (main w examples times cargoStr target).1 =
      Event.printLn PrintMsg.compilingHeader ::
        compileTrace (shlexSplit cargoStr) target examples.length examples 0 ++
        Event.printLn PrintMsg.benchHeader ::
        (benchLoop w target times examples.length examples 0).1 ∧
    (main w examples times cargoStr target).2 =
      (match (benchLoop w target times examples.length examples 0).2 with
       | Outcome.ok _ => Outcome.ok 0
       | Outcome.exited c => Outcome.exited c
       | Outcome.zeroDivError => Outcome.zeroDivError) := by
  unfold main
  dsimp only
  rw [compileLoop_ok w (shlexSplit cargoStr) target examples.length examples 0 h]
  dsimp only
  rcases hb : benchLoop w target times examples.length examples 0 with ⟨es2, o2⟩
  cases o2 <;> simp

theorem main_build_fail (w : World) (pre post : List String) (ex : String)
    (times : Nat) (cargoStr target : String)
    (hpre : ∀ e ∈ pre, w.buildExit e = 0) (hex : w.buildExit ex ≠ 0) :
    main w (pre ++ ex :: post) times cargoStr target =
      (Event.printLn PrintMsg.compilingHeader ::
        (compileTrace (shlexSplit cargoStr) target (pre ++ ex :: post).length pre 0 ++
          [Event.printLn (PrintMsg.compileProgress ex (pre.length + 1)
             (pre ++ ex :: post).length),
           Event.chdir SCRIPT_DIR,
           Event.build (buildCmd (shlexSplit cargoStr) target ex) (w.buildExit ex),
           Event.errPrintBuild (buildCmd (shlexSplit cargoStr) target ex) (w.buildExit ex)
             (w.buildOut ex) (w.buildErr ex)]),
       Outcome.exited 1) := by
  unfold main
  dsimp only
  rw [compileLoop_fail w (shlexSplit cargoStr) target (pre ++ ex :: post).length
    pre post ex 0 hpre hex]
  dsimp only
  norm_num

theorem benchRunsAux_not_zeroDiv (w : World) (ex target : String) (times : Nat) :
    ∀ (rem t : Nat) (acc : List ℚ),
      (benchRunsAux w ex target times rem t acc).2 ≠ Outcome.zeroDivError := by
  intro rem
  induction rem with
  | zero => intro t acc; simp [benchRunsAux]
  | succ rem ih =>
    intro t acc
    rw [benchRunsAux]
    by_cases h : w.runExit ex t = 0
    · rw [benchmark_ok w ex target t h]
      dsimp only
      exact ih (t + 1) _
    · rw [benchmark_fail w ex target t h]
      simp

theorem aggregate_not_zeroDiv (w : World) (ex target : String) (times : Nat)
    (ht : times ≠ 0) :
    (aggregate w ex target times).2 ≠ Outcome.zeroDivError := by
  unfold aggregate
  rcases hb : benchRuns w ex target times with ⟨es, o⟩
  cases o with
  | ok taken_ms => simp [pyDiv, ht]
  | exited c => simp
  | zeroDivError =>
    exfalso
    have hz := benchRunsAux_not_zeroDiv w ex target times times 0 []
    rw [benchRuns] at hb
    rw [hb] at hz
    exact hz rfl

theorem main_ok_code (w : World) (examples : List String) (times : Nat)
    (cargoStr target : String) (c : Nat)
    (h : (main w examples times cargoStr target).2 = Outcome.ok c) : c = 0 := by
  unfold main at h
  dsimp only at h
  rcases h1 : compileLoop w (shlexSplit cargoStr) target examples.length examples 0
    with ⟨es1, o1⟩
  rw [h1] at h
  cases o1 with
  | ok _ =>
    rcases h2 : benchLoop w target times examples.length examples 0 with ⟨es2, o2⟩
    rw [h2] at h
    cases o2 with
    | ok _ =>
      simp at h
      omega
    | exited c' => simp at h
    | zeroDivError => simp at h
  | exited c' => simp at h
  | zeroDivError => simp at h

/-! ### Lemmas: pointwise trace classification -/

theorem precompile_events (w : World) (ex : String) (cargo : List String) (target : String) :
    (precompile w ex cargo target).1.all compileStageEvent = true := by
  by_cases h : w.buildExit ex = 0
  · rw [precompile_ok w ex cargo target h]
    simp [compileStageEvent]
  · simp [precompile, h, compileStageEvent]

theorem compileLoop_events (w : World) (cargo : List String) (target : String) (n : Nat) :
    ∀ (exs : List String) (i : Nat),
      (compileLoop w cargo target n exs i).1.all compileStageEvent = true := by
  intro exs
  induction exs with
  | nil => intro i; simp [compileLoop]
  | cons ex rest ih =>
    intro i
    rw [compileLoop]
    rcases hp : precompile w ex cargo target with ⟨es, o⟩
    have hes : es.all compileStageEvent = true := by
      have hall := precompile_events w ex cargo target
      rw [hp] at hall
      exact hall
    cases o <;> simp [compileStageEvent, hes, ih (i + 1)]

theorem benchmark_events (w : World) (ex target : String) (t : Nat) :
    (benchmark w ex target t).1.all benchStageEvent = true := by
  by_cases h : w.runExit ex t = 0
  · rw [benchmark_ok w ex target t h]
    simp [benchStageEvent]
  · rw [benchmark_fail w ex target t h]
    simp [benchStageEvent]

theorem benchRunsAux_events (w : World) (ex target : String) (times : Nat) :
    ∀ (rem t : Nat) (acc : List ℚ),
      (benchRunsAux w ex target times rem t acc).1.all benchStageEvent = true := by
  intro rem
  induction rem with
  | zero => intro t acc; simp [benchRunsAux]
  | succ rem ih =>
    intro t acc
    rw [benchRunsAux]
    by_cases h : w.runExit ex t = 0
    · rw [benchmark_ok w ex target t h]
      dsimp only
      simp [benchStageEvent, ih (t + 1)]
    · rw [benchmark_fail w ex target t h]
      simp [benchStageEvent]

theorem aggregate_events (w : World) (ex target : String) (times : Nat) :
    (aggregate w ex target times).1.all benchStageEvent = true := by
  unfold aggregate
  rcases hb : benchRuns w ex target times with ⟨es, o⟩
  have hes : es.all benchStageEvent = true := by
    have hall := benchRunsAux_events w ex target times times 0 []
    rw [benchRuns] at hb
    rw [hb] at hall
    exact hall
  cases o with
  | ok taken_ms =>
    cases h1 : pyDiv taken_ms.sum times with
    | none => simp [h1, hes]
    | some mean =>
      cases h2 : pyDiv ((taken_ms.map fun ms => (ms - mean) ^ 2).sum) times with
      | none => simp [h1, h2, hes]
      | some sd => simp [h1, h2, hes, benchStageEvent]
  | exited c => simpa using hes
  | zeroDivError => simpa using hes

theorem benchLoop_events (w : World) (target : String) (times n : Nat) :
    ∀ (exs : List String) (i : Nat),
      (benchLoop w target times n exs i).1.all benchStageEvent = true := by
  intro exs
  induction exs with
  | nil => intro i; simp [benchLoop]
  | cons ex rest ih =>
    intro i
    rw [benchLoop]
    rcases ha : aggregate w ex target times with ⟨es, o⟩
    have hes : es.all benchStageEvent = true := by
      have hall := aggregate_events w ex target times
      rw [ha] at hall
      exact hall
    cases o <;> simp [benchStageEvent, hes, ih (i + 1)]

theorem compileStage_not_run (e : Event) (h : compileStageEvent e = true) :
    isRunEvent e = false := by
  cases e <;> simp_all [compileStageEvent, isRunEvent]

theorem benchStage_no_build (e : Event) (h : benchStageEvent e = true) :
    (match e with | Event.build cmd _ => some cmd | _ => none) = none := by
  cases e <;> simp_all [benchStageEvent]

/-! ### Lemmas: counting and extraction on the expected traces -/

theorem countRuns_benchTrace (w : World) (ex target : String) (times : Nat) :
    ∀ (rem t : Nat), countRuns (benchTrace w ex target times rem t) = rem := by
  intro rem
  induction rem with
  | zero => intro t; simp [benchTrace, countRuns]
  | succ rem ih =>
    intro t
    simp [benchTrace, countRuns, List.countP_cons, isRunEvent]
    have := ih (t + 1)
    simp [countRuns] at this
    omega

theorem countRunMs_benchTrace (w : World) (ex target : String) (times : Nat) :
    ∀ (rem t : Nat), countRunMs (benchTrace w ex target times rem t) = rem := by
  intro rem
  induction rem with
  | zero => intro t; simp [benchTrace, countRunMs]
  | succ rem ih =>
    intro t
    simp [benchTrace, countRunMs, List.countP_cons, isRunMsPrint]
    have := ih (t + 1)
    simp [countRunMs] at this
    omega

theorem countRuns_compileTrace (cargo : List String) (target : String) (n : Nat) :
    ∀ (exs : List String) (i : Nat),
      countRuns (compileTrace cargo target n exs i) = 0 := by
  intro exs
  induction exs with
  | nil => intro i; simp [compileTrace, countRuns]
  | cons ex rest ih =>
    intro i
    simp [compileTrace, countRuns, List.countP_cons, isRunEvent]
    have := ih (i + 1)
    simp [countRuns] at this
    exact this

theorem buildCmds_compileTrace (cargo : List String) (target : String) (n : Nat) :
    ∀ (exs : List String) (i : Nat),
      buildCmds (compileTrace cargo target n exs i) = exs.map (buildCmd cargo target) := by
  intro exs
  induction exs with
  | nil => intro i; simp [compileTrace, buildCmds]
  | cons ex rest ih =>
    intro i
    simp [compileTrace, buildCmds]
    have := ih (i + 1)
    simp [buildCmds] at this
    exact this

/-! ### Lemmas: ordering scanner -/

theorem bbr_printLn (m : PrintMsg) (es : List Event) (s : Bool) :
    buildsBeforeRuns (Event.printLn m :: es) s = buildsBeforeRuns es s := rfl

theorem bbr_of_no_runs (t1 : List Event) :
    ∀ t2, (∀ e ∈ t1, isRunEvent e = false) →
      buildsBeforeRuns (t1 ++ t2) false = buildsBeforeRuns t2 false := by
  induction t1 with
  | nil => intro t2 _; rfl
  | cons e es ih =>
    intro t2 h
    have he := h e (List.mem_cons_self _ _)
    have hes := fun x hx => h x (List.mem_cons_of_mem _ hx)
    cases e with
    | run p c => simp [isRunEvent] at he
    | chdir d => simpa [buildsBeforeRuns] using ih t2 hes
    | printLn m => simpa [buildsBeforeRuns] using ih t2 hes
    | build cmd c => simpa [buildsBeforeRuns] using ih t2 hes
    | errPrintBuild a b c d => simpa [buildsBeforeRuns] using ih t2 hes
    | errPrintRun a b c d => simpa [buildsBeforeRuns] using ih t2 hes

theorem bbr_no_builds (t2 : List Event) :
    ∀ s, (∀ e ∈ t2, benchStageEvent e = true) → buildsBeforeRuns t2 s = true := by
  induction t2 with
  | nil => intro s _; rfl
  | cons e es ih =>
    intro s h
    have he := h e (List.mem_cons_self _ _)
    have hes := fun x hx => h x (List.mem_cons_of_mem _ hx)
    cases e with
    | build cmd c => simp [benchStageEvent] at he
    | run p c => simpa [buildsBeforeRuns] using ih true hes
    | chdir d => simpa [buildsBeforeRuns] using ih s hes
    | printLn m => simpa [buildsBeforeRuns] using ih s hes
    | errPrintBuild a b c d => simpa [buildsBeforeRuns] using ih s hes
    | errPrintRun a b c d => simpa [buildsBeforeRuns] using ih s hes

theorem bbr_no_runs_true (t : List Event) (h : ∀ e ∈ t, isRunEvent e = false) :
    buildsBeforeRuns t false = true := by
  have hx := bbr_of_no_runs t [] h
  simpa using hx

theorem buildsBeforeRuns_main (w : World) (examples : List String) (times : Nat)
    (cargoStr target : String) :
    buildsBeforeRuns (main w examples times cargoStr target).1 false = true := by
  unfold main
  dsimp only
  rcases h1 : compileLoop w (shlexSplit cargoStr) target examples.length examples 0
    with ⟨es1, o1⟩
  have hnr : ∀ e ∈ es1, isRunEvent e = false := by
    have hall := compileLoop_events w (shlexSplit cargoStr) target examples.length examples 0
    rw [h1] at hall
    rw [List.all_eq_true] at hall
    exact fun e he => compileStage_not_run e (hall e he)
  cases o1 with
  | ok _ =>
    rcases h2 : benchLoop w target times examples.length examples 0 with ⟨es2, o2⟩
    have hnb : ∀ e ∈ es2, benchStageEvent e = true := by
      have hall := benchLoop_events w target times examples.length examples 0
      rw [h2] at hall
      rw [List.all_eq_true] at hall
      exact hall
    have key : buildsBeforeRuns (Event.printLn PrintMsg.compilingHeader :: es1 ++
        Event.printLn PrintMsg.benchHeader :: es2) false = true := by
      rw [List.cons_append, bbr_printLn,
        bbr_of_no_runs es1 (Event.printLn PrintMsg.benchHeader :: es2) hnr, bbr_printLn]
      exact bbr_no_builds es2 false hnb
    cases o2 <;> exact key
  | exited c =>
    dsimp only
    rw [bbr_printLn]
    exact bbr_no_runs_true es1 hnr
  | zeroDivError =>
    dsimp only
    rw [bbr_printLn]
    exact bbr_no_runs_true es1 hnr

/-! ### Lemmas: working-directory scanner -/

theorem spawnsOk_printLn (m : PrintMsg) (es : List Event) (cwd : Option String) :
    spawnsOk cwd (Event.printLn m :: es) = spawnsOk cwd es := rfl

theorem cwdAfter_append (init : Option String) (t1 t2 : List Event) :
    cwdAfter init (t1 ++ t2) = cwdAfter (cwdAfter init t1) t2 := by
  simp [cwdAfter, List.foldl_append]

theorem spawnsOk_append (t1 : List Event) :
    ∀ (t2 : List Event) (cwd : Option String),
      spawnsOk cwd (t1 ++ t2) =
        (spawnsOk cwd t1 && spawnsOk (cwdAfter cwd t1) t2) := by
  induction t1 with
  | nil => intro t2 cwd; simp [spawnsOk, cwdAfter]
  | cons e es ih =>
    intro t2 cwd
    cases e with
    | chdir d => simp [spawnsOk, cwdAfter, ih]
    | build cmd c => simp [spawnsOk, cwdAfter, ih, Bool.and_assoc]
    | run p c => simp [spawnsOk, cwdAfter, ih, Bool.and_assoc]
    | printLn m => simp [spawnsOk, cwdAfter, ih]
    | errPrintBuild a b c d => simp [spawnsOk, cwdAfter, ih]
    | errPrintRun a b c d => simp [spawnsOk, cwdAfter, ih]

theorem spawnsOk_all_append (t1 t2 : List Event)
    (h1 : ∀ c, spawnsOk c t1 = true) (h2 : ∀ c, spawnsOk c t2 = true)
    (c : Option String) : spawnsOk c (t1 ++ t2) = true := by
  rw [spawnsOk_append t1 t2 c, h1 c, h2 (cwdAfter c t1)]
  rfl

theorem spawnsOk_precompile (w : World) (ex : String) (cargo : List String)
    (target : String) (cwd : Option String) :
    spawnsOk cwd (precompile w ex cargo target).1 = true := by
  by_cases h : w.buildExit ex = 0
  · rw [precompile_ok w ex cargo target h]
    simp [spawnsOk]
  · simp [precompile, h, spawnsOk]

theorem spawnsOk_benchmark (w : World) (ex target : String) (t : Nat)
    (cwd : Option String) :
    spawnsOk cwd (benchmark w ex target t).1 = true := by
  by_cases h : w.runExit ex t = 0
  · rw [benchmark_ok w ex target t h]
    simp [spawnsOk]
  · rw [benchmark_fail w ex target t h]
    simp [spawnsOk]

theorem spawnsOk_benchRunsAux (w : World) (ex target : String) (times : Nat) :
    ∀ (rem t : Nat) (acc : List ℚ) (cwd : Option String),
      spawnsOk cwd (benchRunsAux w ex target times rem t acc).1 = true := by
  intro rem
  induction rem with
  | zero => intro t acc cwd; simp [benchRunsAux, spawnsOk]
  | succ rem ih =>
    intro t acc cwd
    rw [benchRunsAux]
    by_cases h : w.runExit ex t = 0
    · rw [benchmark_ok w ex target t h]
      dsimp only
      simp [spawnsOk, ih]
    · rw [benchmark_fail w ex target t h]
      simp [spawnsOk]

theorem spawnsOk_aggregate (w : World) (ex target : String) (times : Nat)
    (cwd : Option String) :
    spawnsOk cwd (aggregate w ex target times).1 = true := by
  unfold aggregate
  rcases hb : benchRuns w ex target times with ⟨es, o⟩
  have hes : ∀ c, spawnsOk c es = true := by
    intro c
    have hx := spawnsOk_benchRunsAux w ex target times times 0 [] c
    rw [benchRuns] at hb
    rw [hb] at hx
    exact hx
  cases o with
  | ok taken_ms =>
    cases h1 : pyDiv taken_ms.sum times with
    | none => simp [h1, hes]
    | some mean =>
      cases h2 : pyDiv ((taken_ms.map fun ms => (ms - mean) ^ 2).sum) times with
      | none => simp [h1, h2, hes]
      | some sd =>
        simp only [h1, h2]
        exact spawnsOk_all_append es _ hes (fun c => by simp [spawnsOk]) cwd
  | exited c => simp [hes]
  | zeroDivError => simp [hes]

theorem spawnsOk_compileLoop (w : World) (cargo : List String) (target : String)
    (n : Nat) :
    ∀ (exs : List String) (i : Nat) (cwd : Option String),
      spawnsOk cwd (compileLoop w cargo target n exs i).1 = true := by
  intro exs
  induction exs with
  | nil => intro i cwd; simp [compileLoop, spawnsOk]
  | cons ex rest ih =>
    intro i cwd
    rw [compileLoop]
    rcases hp : precompile w ex cargo target with ⟨es, o⟩
    have hes : ∀ c, spawnsOk c es = true := by
      intro c
      have hx := spawnsOk_precompile w ex cargo target c
      rw [hp] at hx
      exact hx
    cases o with
    | ok _ =>
      dsimp only
      rw [List.cons_append, spawnsOk_printLn]
      exact spawnsOk_all_append es _ hes (fun c => ih (i + 1) c) cwd
    | exited c =>
      dsimp only
      rw [spawnsOk_printLn]
      exact hes cwd
    | zeroDivError =>
      dsimp only
      rw [spawnsOk_printLn]
      exact hes cwd

theorem spawnsOk_benchLoop (w : World) (target : String) (times n : Nat) :
    ∀ (exs : List String) (i : Nat) (cwd : Option String),
      spawnsOk cwd (benchLoop w target times n exs i).1 = true := by
  intro exs
  induction exs with
  | nil => intro i cwd; simp [benchLoop, spawnsOk]
  | cons ex rest ih =>
    intro i cwd
    rw [benchLoop]
    rcases ha : aggregate w ex target times with ⟨es, o⟩
    have hes : ∀ c, spawnsOk c es = true := by
      intro c
      have hx := spawnsOk_aggregate w ex target times c
      rw [ha] at hx
      exact hx
    cases o with
    | ok _ =>
      dsimp only
      rw [List.cons_append, spawnsOk_printLn]
      exact spawnsOk_all_append es _ hes (fun c => ih (i + 1) c) cwd
    | exited c =>
      dsimp only
      rw [spawnsOk_printLn]
      exact hes cwd
    | zeroDivError =>
      dsimp only
      rw [spawnsOk_printLn]
      exact hes cwd

theorem spawnsOk_main (w : World) (examples : List String) (times : Nat)
    (cargoStr target : String) (cwd : Option String) :
    spawnsOk cwd (main w examples times cargoStr target).1 = true := by
  unfold main
  dsimp only
  rcases h1 : compileLoop w (shlexSplit cargoStr) target examples.length examples 0
    with ⟨es1, o1⟩
  have hes1 : ∀ c, spawnsOk c es1 = true := by
    intro c
    have hx := spawnsOk_compileLoop w (shlexSplit cargoStr) target
      examples.length examples 0 c
    rw [h1] at hx
    exact hx
  cases o1 with
  | ok _ =>
    rcases h2 : benchLoop w target times examples.length examples 0 with ⟨es2, o2⟩
    have hes2 : ∀ c, spawnsOk c es2 = true := by
      intro c
      have hx := spawnsOk_benchLoop w target times examples.length examples 0 c
      rw [h2] at hx
      exact hx
    have key : ∀ c, spawnsOk c (Event.printLn PrintMsg.compilingHeader :: es1 ++
        Event.printLn PrintMsg.benchHeader :: es2) = true := by
      intro c
      rw [List.cons_append, spawnsOk_printLn]
      exact spawnsOk_all_append es1 _ hes1
        (fun c' => by rw [spawnsOk_printLn]; exact hes2 c') c
    cases o2 <;> exact key cwd
  | exited c =>
    dsimp only
    rw [spawnsOk_printLn]
    exact hes1 cwd
  | zeroDivError =>
    dsimp only
    rw [spawnsOk_printLn]
    exact hes1 cwd

/-! ### Lemmas: chdir targets -/

theorem chdirsOk_of_compileStage (es : List Event)
    (h : es.all compileStageEvent = true) : chdirsOk es = true := by
  rw [chdirsOk, List.all_eq_true]
  rw [List.all_eq_true] at h
  intro e he
  have hx := h e he
  cases e <;> simp_all [compileStageEvent, chdirOkEvent]

theorem chdirsOk_of_benchStage (es : List Event)
    (h : es.all benchStageEvent = true) : chdirsOk es = true := by
  rw [chdirsOk, List.all_eq_true]
  rw [List.all_eq_true] at h
  intro e he
  have hx := h e he
  cases e <;> simp_all [benchStageEvent, chdirOkEvent]

theorem chdirsOk_main (w : World) (examples : List String) (times : Nat)
    (cargoStr target : String) :
    chdirsOk (main w examples times cargoStr target).1 = true := by
  unfold main
  dsimp only
  rcases h1 : compileLoop w (shlexSplit cargoStr) target examples.length examples 0
    with ⟨es1, o1⟩
  have hc1 : chdirsOk es1 = true := by
    apply chdirsOk_of_compileStage
    have hall := compileLoop_events w (shlexSplit cargoStr) target
      examples.length examples 0
    rw [h1] at hall
    exact hall
  cases o1 with
  | ok _ =>
    rcases h2 : benchLoop w target times examples.length examples 0 with ⟨es2, o2⟩
    have hc2 : chdirsOk es2 = true := by
      apply chdirsOk_of_benchStage
      have hall := benchLoop_events w target times examples.length examples 0
      rw [h2] at hall
      exact hall
    have key : chdirsOk (Event.printLn PrintMsg.compilingHeader :: es1 ++
        Event.printLn PrintMsg.benchHeader :: es2) = true := by
      rw [chdirsOk] at hc1 hc2 ⊢
      simp [List.all_append, hc1, hc2, chdirOkEvent]
    cases o2 <;> exact key
  | exited c =>
    dsimp only
    rw [chdirsOk] at hc1 ⊢
    simp [hc1, chdirOkEvent]
  | zeroDivError =>
    dsimp only
    rw [chdirsOk] at hc1 ⊢
    simp [hc1, chdirOkEvent]

/-! ### Last supporting lemmas -/

theorem buildCmds_main_ok (w : World) (examples : List String) (times : Nat)
    (cargoStr target : String) (h : ∀ ex ∈ examples, w.buildExit ex = 0) :
    buildCmds (main w examples times cargoStr target).1 =
      examples.map (buildCmd (shlexSplit cargoStr) target) := by
  obtain ⟨h1, -⟩ := main_builds_ok w examples times cargoStr target h
  have hnb : buildCmds (benchLoop w target times examples.length examples 0).1 = [] := by
    rw [buildCmds, List.filterMap_eq_nil_iff]
    have hall := benchLoop_events w target times examples.length examples 0
    rw [List.all_eq_true] at hall
    exact fun e he => benchStage_no_build e (hall e he)
  have hct := buildCmds_compileTrace (shlexSplit cargoStr) target
    examples.length examples 0
  rw [h1]
  rw [buildCmds] at hnb hct ⊢
  simp [List.filterMap_append, hnb, hct]

theorem aggregate_statsLine (w : World) (ex target : String) (times : Nat)
    (h : ∀ t, t < times → w.runExit ex t = 0) (ht : times ≠ 0) :
    (aggregate w ex target times).1.getLast? =
      some (Event.printLn (PrintMsg.statsLine (meanOf (msList w ex times) times)
        (stddevOf (msList w ex times) times))) := by
  rw [aggregate_ok w ex target times h ht]
  simp

/-! ### The claims -/

/-- C1: for every example, whenever the Aggregator reaches its final
output line (all runs succeeded, `times ≠ 0`, sample count = `times`),
the value it prints under the label "standard deviation" is exactly the
population variance of the millisecond samples — the sum of squared
deviations from the mean divided by the repetition count, with no square
root applied; for samples `[10, 20, 30]` ms the value is `200/3`, which
prints as `66.67` to two decimal places. -/
theorem C1_stddev_label_is_population_variance :
    (∀ (w : World) (ex target : String) (times : Nat),
      (∀ t, t < times → w.runExit ex t = 0) → times ≠ 0 →
      ∃ ms : List ℚ, ms.length = times ∧ ms ≠ [] ∧
        (aggregate w ex target times).1.getLast? =
          some (Event.printLn (PrintMsg.statsLine (meanOf ms times)
            (stddevOf ms times))) ∧
        stddevOf ms times = populationVariance ms) ∧
    stddevOf [10, 20, 30] 3 = 200 / 3 ∧
    round ((100 : ℚ) * stddevOf [10, 20, 30] 3) = 6667 := by
  refine ⟨?_, by norm_num [stddevOf, meanOf], by norm_num [stddevOf, meanOf, round_eq]⟩
  intro w ex target times h ht
  refine ⟨msList w ex times, msList_length w ex times, ?_,
    aggregate_statsLine w ex target times h ht, ?_⟩
  · intro hnil
    have hlen := msList_length w ex times
    rw [hnil] at hlen
    exact ht hlen.symm
  · simp only [stddevOf, populationVariance, meanOf, msList_length]

/-- C1 witness: the theorem instantiated at the all-success world with
two repetitions. -/
theorem C1_witness :
    ∃ ms : List ℚ, ms.length = 2 ∧ ms ≠ [] ∧
      (aggregate wOk "section6-3-1" "/tmp/out" 2).1.getLast? =
        some (Event.printLn (PrintMsg.statsLine (meanOf ms 2) (stddevOf ms 2))) ∧
      stddevOf ms 2 = populationVariance ms :=
  C1_stddev_label_is_population_variance.1 wOk "section6-3-1" "/tmp/out" 2
    (fun t _ => rfl) (by decide)

/-- C2: the Compiler Stage constructs the build command as the shell-lexed
cargo tokens followed by the eight fixed-position tokens, with target and
example substituted; in particular for `cargo="cargo +nightly"`,
example `"section6-3-1"`, target `"/tmp/out"` it is exactly the stated
ten-token sequence. -/
theorem C2_build_command_tokens :
    (∀ (w : World) (ex cargoStr target : String),
      (precompile w ex (shlexSplit cargoStr) target).1.get? 1 =
        some (Event.build (shlexSplit cargoStr ++
          ["build", "--release", "--target-dir", target, "--features",
           "dataplane,log,serde,slick", "--example", ex]) (w.buildExit ex))) ∧
    buildCmd (shlexSplit "cargo +nightly") "/tmp/out" "section6-3-1" =
      ["cargo", "+nightly", "build", "--release", "--target-dir", "/tmp/out",
       "--features", "dataplane,log,serde,slick", "--example", "section6-3-1"] := by
  constructor
  · intro w ex cargoStr target
    by_cases h : w.buildExit ex = 0
    · rw [precompile_ok w ex (shlexSplit cargoStr) target h, h]
      rfl
    · simp [precompile, h, buildCmd]
  · decide

/-- C3: for every configuration, when all builds succeed the Compiler
Stage is invoked exactly once per entry of the examples list, in list
order (the sequence of spawned build commands equals the examples list
mapped through the command constructor); and unconditionally, no build
invocation ever occurs after a benchmark invocation in the trace. -/
theorem C3_compile_once_each_in_order_before_bench :
    (∀ (w : World) (examples : List String) (times : Nat) (cargoStr target : String),
      (∀ ex ∈ examples, w.buildExit ex = 0) →
      buildCmds (main w examples times cargoStr target).1 =
        examples.map (buildCmd (shlexSplit cargoStr) target)) ∧
    (∀ (w : World) (examples : List String) (times : Nat) (cargoStr target : String),
      buildsBeforeRuns (main w examples times cargoStr target).1 false = true) :=
  ⟨fun w examples times cargoStr target h =>
      buildCmds_main_ok w examples times cargoStr target h,
   fun w examples times cargoStr target =>
      buildsBeforeRuns_main w examples times cargoStr target⟩

/-- C3 witness: the per-entry, in-order build-command sequence at a
concrete two-example configuration in the all-success world. -/
theorem C3_witness :
    buildCmds (main wOk ["section6-3-1", "section6-3-2"] 1 "cargo" "/tmp/out").1 =
      ["section6-3-1", "section6-3-2"].map (buildCmd (shlexSplit "cargo") "/tmp/out") :=
  C3_compile_once_each_in_order_before_bench.1 wOk ["section6-3-1", "section6-3-2"]
    1 "cargo" "/tmp/out" (fun _ _ => rfl)

/-- C4: when the first failing build (all earlier builds succeeded) exits
non-zero, the driver's outcome is `sys.exit(1)`, the last event is the
stderr diagnostic carrying the command, exit code and both captured
streams, and no benchmark run is ever attempted; and when a benchmark
binary exits non-zero, the Benchmark Stage likewise prints the diagnostic
and exits with code 1. -/
theorem C4_nonzero_exit_is_fatal :
    (∀ (w : World) (pre post : List String) (ex : String) (times : Nat)
        (cargoStr target : String),
      (∀ e ∈ pre, w.buildExit e = 0) → w.buildExit ex ≠ 0 →
      (main w (pre ++ ex :: post) times cargoStr target).2 = Outcome.exited 1 ∧
      (main w (pre ++ ex :: post) times cargoStr target).1.getLast? =
        some (Event.errPrintBuild (buildCmd (shlexSplit cargoStr) target ex)
          (w.buildExit ex) (w.buildOut ex) (w.buildErr ex)) ∧
      countRuns (main w (pre ++ ex :: post) times cargoStr target).1 = 0) ∧
    (∀ (w : World) (ex target : String) (t : Nat),
      w.runExit ex t ≠ 0 →
      benchmark w ex target t =
        ([Event.chdir SCRIPT_DIR, Event.run (binPath target ex) (w.runExit ex t),
          Event.errPrintRun (binPath target ex) (w.runExit ex t)
            (w.runOut ex t) (w.runErr ex t)], Outcome.exited 1)) := by
  constructor
  · intro w pre post ex times cargoStr target hpre hex
    rw [main_build_fail w pre post ex times cargoStr target hpre hex]
    refine ⟨rfl, ?_, ?_⟩
    · rw [← List.cons_append, List.getLast?_append_of_ne_nil]
      · rfl
      · simp
    · have hA := countRuns_compileTrace (shlexSplit cargoStr) target
        (pre ++ ex :: post).length pre 0
      rw [countRuns] at hA
      generalize hT : compileTrace (shlexSplit cargoStr) target
        (pre ++ ex :: post).length pre 0 = A at hA ⊢
      rw [countRuns, ← List.cons_append, List.countP_append, List.countP_cons]
      simp [List.countP_cons, isRunEvent, hA]
  · intro w ex target t h
    exact benchmark_fail w ex target t h

/-- C4 witness: a single example whose build exits with code 2 — the
driver exits 1, prints the diagnostic last, and attempts no run. -/
theorem C4_witness :
    (main wFail2 ([] ++ "section6-3-1" :: []) 2 "cargo" "/tmp/out").2 =
        Outcome.exited 1 ∧
      (main wFail2 ([] ++ "section6-3-1" :: []) 2 "cargo" "/tmp/out").1.getLast? =
        some (Event.errPrintBuild (buildCmd (shlexSplit "cargo") "/tmp/out"
          "section6-3-1") (wFail2.buildExit "section6-3-1")
          (wFail2.buildOut "section6-3-1") (wFail2.buildErr "section6-3-1")) ∧
      countRuns (main wFail2 ([] ++ "section6-3-1" :: []) 2 "cargo" "/tmp/out").1 = 0 :=
  C4_nonzero_exit_is_fatal.1 wFail2 [] [] "section6-3-1" 2 "cargo" "/tmp/out"
    (by simp) (by decide)

/-- C5: for every example, when all its runs succeed the Aggregator
invokes the Benchmark Stage exactly `times` times, prints exactly `times`
per-run sample lines, and collects as samples the elapsed seconds of runs
`0, …, times-1`, each converted to milliseconds by multiplying by 1000. -/
theorem C5_aggregator_runs_times_times :
    ∀ (w : World) (ex target : String) (times : Nat),
      (∀ t, t < times → w.runExit ex t = 0) →
      countRuns (aggregate w ex target times).1 = times ∧
      countRunMs (aggregate w ex target times).1 = times ∧
      (benchRuns w ex target times).2 =
        Outcome.ok ((List.range times).map fun t => w.runTime ex t * 1000) := by
  intro w ex target times h
  by_cases ht : times = 0
  · subst ht
    refine ⟨?_, ?_, ?_⟩ <;>
      simp [aggregate, benchRuns, benchRunsAux, pyDiv, countRuns, countRunMs]
  · refine ⟨?_, ?_, ?_⟩
    · rw [aggregate_ok w ex target times h ht, countRuns, List.countP_append]
      have hA := countRuns_benchTrace w ex target times times 0
      rw [countRuns] at hA
      simp [hA, List.countP_cons, isRunEvent]
    · rw [aggregate_ok w ex target times h ht, countRunMs, List.countP_append]
      have hA := countRunMs_benchTrace w ex target times times 0
      rw [countRunMs] at hA
      simp [hA, List.countP_cons, isRunMsPrint]
    · rw [benchRuns_ok w ex target times h]
      rfl

/-- C5 witness: three successful runs of one example. -/
theorem C5_witness :
    countRuns (aggregate wOk "section6-3-1" "/tmp/out" 3).1 = 3 ∧
      countRunMs (aggregate wOk "section6-3-1" "/tmp/out" 3).1 = 3 ∧
      (benchRuns wOk "section6-3-1" "/tmp/out" 3).2 =
        Outcome.ok ((List.range 3).map fun t => wOk.runTime "section6-3-1" t * 1000) :=
  C5_aggregator_runs_times_times wOk "section6-3-1" "/tmp/out" 3 (fun _ _ => rfl)

/-- C6: for every example, whenever the Aggregator reaches its final
output line, the mean it prints is the arithmetic mean of the millisecond
samples — their sum divided by the repetition count, which equals the
number of samples; for samples `[10, 20, 30]` ms the mean is `20`, which
prints as `20.00`. -/
theorem C6_mean_is_arithmetic_mean :
    (∀ (w : World) (ex target : String) (times : Nat),
      (∀ t, t < times → w.runExit ex t = 0) → times ≠ 0 →
      ∃ ms : List ℚ, ms.length = times ∧
        (aggregate w ex target times).1.getLast? =
          some (Event.printLn (PrintMsg.statsLine (meanOf ms times)
            (stddevOf ms times))) ∧
        meanOf ms times = ms.sum / ms.length) ∧
    meanOf [10, 20, 30] 3 = 20 ∧
    round ((100 : ℚ) * meanOf [10, 20, 30] 3) = 2000 := by
  refine ⟨?_, by norm_num [meanOf], by norm_num [meanOf, round_eq]⟩
  intro w ex target times h ht
  refine ⟨msList w ex times, msList_length w ex times,
    aggregate_statsLine w ex target times h ht, ?_⟩
  simp only [meanOf, msList_length]

/-- C6 witness: the theorem instantiated at the all-success world with
two repetitions. -/
theorem C6_witness :
    ∃ ms : List ℚ, ms.length = 2 ∧
      (aggregate wOk "section6-3-1" "/tmp/out" 2).1.getLast? =
        some (Event.printLn (PrintMsg.statsLine (meanOf ms 2) (stddevOf ms 2))) ∧
      meanOf ms 2 = ms.sum / ms.length :=
  C6_mean_is_arithmetic_mean.1 wOk "section6-3-1" "/tmp/out" 2
    (fun t _ => rfl) (by decide)

/-- C7: with the empty examples list the orchestrator performs no build
and no run and returns 0 (its whole behaviour is the two header prints);
and in general, whenever `main` returns at all, the returned code is 0. -/
theorem C7_empty_examples_and_zero_return :
    (∀ (w : World) (times : Nat) (cargoStr target : String),
      main w [] times cargoStr target =
        ([Event.printLn PrintMsg.compilingHeader, Event.printLn PrintMsg.benchHeader],
         Outcome.ok 0)) ∧
    (∀ (w : World) (examples : List String) (times : Nat) (cargoStr target : String)
        (c : Nat),
      (main w examples times cargoStr target).2 = Outcome.ok c → c = 0) := by
  constructor
  · intro w times cargoStr target
    rfl
  · intro w examples times cargoStr target c h
    exact main_ok_code w examples times cargoStr target c h

/-- C7 witness: the general zero-return fact applied at a concrete
completed execution. -/
theorem C7_witness : (0 : Nat) = 0 :=
  C7_empty_examples_and_zero_return.2 wOk [] 0 "cargo" "/tmp/out" 0 rfl

/-- C8: for every configuration and every caller working directory, the
working directory equals the fixed script directory at every external
process invocation in the trace, and the only ambient-state mutations the
driver performs are `chdir`s to that same fixed directory. -/
theorem C8_chdir_to_script_dir_before_every_spawn :
    ∀ (w : World) (examples : List String) (times : Nat) (cargoStr target : String)
      (init : Option String),
      spawnsOk init (main w examples times cargoStr target).1 = true ∧
      chdirsOk (main w examples times cargoStr target).1 = true :=
  fun w examples times cargoStr target init =>
    ⟨spawnsOk_main w examples times cargoStr target init,
     chdirsOk_main w examples times cargoStr target⟩

/-- C9: the Benchmark Stage reads the exit status of the already
terminated child twice (lines 89 and 91); both reads return the same
value, so its full behaviour — trace, elapsed-time result and exit path —
is identical to the variant that reads the status once. -/
theorem C9_double_status_read_equals_single_read :
    ∀ (w : World) (ex target : String) (t : Nat),
      benchmark w ex target t = benchmarkOnce w ex target t :=
  fun _ _ _ _ => rfl

/-- C10: with a non-empty examples list and `times = 0`, after all builds
succeed the Aggregator's mean computation divides the empty sample sum by
zero and the driver ends in an uncaught `ZeroDivisionError` (neither a
normal return nor the fatal `sys.exit` path); with `times ≠ 0` the
Aggregator never raises it. -/
theorem C10_times_zero_raises_division_error :
    (∀ (w : World) (ex : String) (rest : List String) (cargoStr target : String),
      (∀ e ∈ ex :: rest, w.buildExit e = 0) →
      (main w (ex :: rest) 0 cargoStr target).2 = Outcome.zeroDivError) ∧
    (∀ (w : World) (ex target : String) (times : Nat),
      times ≠ 0 → (aggregate w ex target times).2 ≠ Outcome.zeroDivError) := by
  constructor
  · intro w ex rest cargoStr target h
    obtain ⟨-, h2⟩ := main_builds_ok w (ex :: rest) 0 cargoStr target h
    rw [h2]
    have hb : (benchLoop w target 0 (ex :: rest).length (ex :: rest) 0).2 =
        Outcome.zeroDivError := by
      rw [benchLoop]
      have ha : aggregate w ex target 0 = ([], Outcome.zeroDivError) := by
        simp [aggregate, benchRuns, benchRunsAux, pyDiv]
      rw [ha]
    rw [hb]
  · intro w ex target times ht
    exact aggregate_not_zeroDiv w ex target times ht

/-- C10 witness: one example, zero repetitions, all builds succeed. -/
theorem C10_witness :
    (main wOk ("section6-3-1" :: []) 0 "cargo" "/tmp/out").2 =
      Outcome.zeroDivError :=
  C10_times_zero_raises_division_error.1 wOk "section6-3-1" [] "cargo" "/tmp/out"
    (fun _ _ => rfl)

end Benchmark
